import Mathlib

/-!
Verification development for the getnew tool (Go, package cmd).

The tool selects the nth most recently modified regular file from a source
directory, optionally filtered by a case-insensitive substring on the file
name, relocates it to the current directory by a byte copy followed by
removal of the original, and can then shell out to an external archive
tool for the first recognized archive in the current directory.

The Go functions moveNthNewestFile, moveFile and unarchiveFile are embedded
below.  Pure logic (filtering, rank arithmetic, extension dispatch) is
embedded as computable functions.  The call to sort.Slice is embedded by
its documented contract only: sort.Slice guarantees a permutation of the
input that is sorted with respect to the comparator and is documented as
not guaranteed to be stable, so the embedding quantifies over all sorted
permutations.  Filesystem and child-process effects are embedded as
explicit state passing with an environment recording which syscalls fail.
-/

namespace Getnew

/-- Result of the Go call file.Info(): the file name and its modification
time (Go time.Time, modeled as an integer timestamp; ModTime comparison
t1.After(t2) is t1 > t2). -/
structure FileInfo where
  name : String
  modTime : Int
  deriving DecidableEq

/-- A directory entry as returned by os.ReadDir: a name, whether the entry
is a directory, and the modification time its Info() reports. -/
structure DirEntry where
  name : String
  isDir : Bool
  modTime : Int
  deriving DecidableEq

/-- The FileInfo obtained from a directory entry via file.Info(). -/
def entryInfo (e : DirEntry) : FileInfo := ⟨e.name, e.modTime⟩

/-- Go strings.ToLower, per character. -/
def strToLower (s : String) : String := String.mk (s.data.map Char.toLower)

/-- Go strings.Contains s sub: sub occurs as a contiguous substring of s. -/
def goContains (s sub : String) : Bool :=
  (List.range (s.data.length + 1)).any (fun i => List.isPrefixOf sub.data (s.data.drop i))

/-- The filter condition of moveNthNewestFile: keep an entry when it is not
a directory and either the filter is empty or the lowercased name contains
the lowercased filter. -/
def keepEntry (fileFilter : String) (e : DirEntry) : Bool :=
  !e.isDir && (fileFilter == "" || goContains (strToLower e.name) (strToLower fileFilter))

/-- The regularFiles slice built by the loop in moveNthNewestFile: the
Info() of every non-directory entry passing the filter, in enumeration
order. -/
def collectRegularFiles (entries : List DirEntry) (fileFilter : String) : List FileInfo :=
  (entries.filter (keepEntry fileFilter)).map entryInfo

/-- The error values the Go functions can return, one constructor per
distinct fmt.Errorf site in moveNthNewestFile and moveFile. -/
inductive MoveErr where
  | dirReadFailed
  | noFiles
  | noFilesMatching (fileFilter : String)
  | outOfRange (nthNewest : Int) (count : Nat)
  | openFailed
  | createFailed
  | copyFailed
  | closeSrcFailed
  | closeDstFailed
  | removeFailed
  deriving DecidableEq

/-- A single quote character, used in the Go error message
"no files matching <quote>%s<quote> found in the source directory". -/
def sq : String := String.singleton (Char.ofNat 39)

/-- The message text of each error, following the fmt.Errorf format strings
in the Go source (wrapped underlying errors omitted). -/
def errMsg : MoveErr → String
  | .dirReadFailed => "failed to read source directory"
  | .noFiles => "no files found in the source directory"
  | .noFilesMatching f => "no files matching " ++ sq ++ f ++ sq ++ " found in the source directory"
  | .outOfRange n count =>
      "requested " ++ toString n ++ "th newest file, but only " ++ toString count
        ++ " files available"
  | .openFailed => "failed to open source file"
  | .createFailed => "failed to create destination file"
  | .copyFailed => "failed to copy file"
  | .closeSrcFailed => "failed to close source file"
  | .closeDstFailed => "failed to close destination file"
  | .removeFailed => "failed to remove original file"

/-- The error moveFile returns when the regularFiles slice is empty,
distinguishing an empty filter from a non-empty one. -/
def emptyListError (fileFilter : String) : MoveErr :=
  if fileFilter ≠ "" then .noFilesMatching fileFilter else .noFiles

/-- The postcondition of the sort.Slice call in moveFile: adjacent pairs
satisfy the negation of the comparator, so modification times are
non-increasing along the list. -/
def IsGoSortedDesc (l : List FileInfo) : Prop :=
  l.Pairwise (fun a b => b.modTime ≤ a.modTime)

instance (l : List FileInfo) : Decidable (IsGoSortedDesc l) :=
  List.instDecidablePairwise l

/-- Outcome of the selection phase of moveFile: a selected file, a returned
error, or a Go runtime panic from indexing the slice out of bounds. -/
inductive SelectOutcome where
  | ok (f : FileInfo)
  | err (e : MoveErr)
  | panicked
  deriving DecidableEq

/-- The tail of moveFile after sort.Slice has produced the sorted slice:
the range guard on nthNewest, then the slice index at nthNewest - 1,
which panics when the index is out of bounds (in particular for
nthNewest less than 1). -/
def selectAfterSort (sorted : List FileInfo) (nthNewest : Int) : SelectOutcome :=
  if nthNewest > (sorted.length : Int) then .err (.outOfRange nthNewest sorted.length)
  else if h : 0 ≤ nthNewest - 1 ∧ (nthNewest - 1).toNat < sorted.length then
    .ok (sorted.get ⟨(nthNewest - 1).toNat, h.2⟩)
  else .panicked

/-- The selection phase of moveFile as a relation between its inputs and
its outcome: the empty check, then any sorted permutation that sort.Slice
may produce, then the guarded index.  A relation rather than a function
because sort.Slice is documented as not guaranteed to be stable, so with
equal modification times the sorted order is underdetermined. -/
def moveFileSelect (regularFiles : List FileInfo) (nthNewest : Int) (fileFilter : String)
    (out : SelectOutcome) : Prop :=
  if regularFiles.length = 0 then out = .err (emptyListError fileFilter)
  else ∃ sorted : List FileInfo,
    List.Perm sorted regularFiles ∧ IsGoSortedDesc sorted ∧ out = selectAfterSort sorted nthNewest

/-- The selection performed by moveNthNewestFile on a directory listing:
filter the entries, then run the selection phase of moveFile. -/
def moveNthNewestSelect (entries : List DirEntry) (nthNewest : Int) (fileFilter : String)
    (out : SelectOutcome) : Prop :=
  moveFileSelect (collectRegularFiles entries fileFilter) nthNewest fileFilter out

/-- Filesystem state for the relocation phase: the contents (byte lists)
of files in the source directory and in the current (destination)
directory, by file name. -/
structure Fs where
  src : String → Option (List Nat)
  dst : String → Option (List Nat)

/-- Environment describing which of the fallible filesystem calls of the
relocation phase of moveFile fail in a given run.  copyFailsAfter = some k
means io.Copy fails after k bytes have been written to the destination. -/
structure FsEnv where
  openFails : Bool
  createFails : Bool
  copyFailsAfter : Option Nat
  closeSrcFails : Bool
  closeDstFails : Bool
  removeFails : Bool

/-- The relocation phase of moveFile, embedding the sequence os.Open,
os.Create (truncating the destination), io.Copy, the two Close calls and
os.Remove, with explicit state passing.  On success Go prints the file
name and returns nil, embedded as Except.ok with the printed name. -/
def moveFileCopyPhase (fs : Fs) (env : FsEnv) (name : String) :
    Except MoveErr String × Fs :=
  match fs.src name with
  | none => (.error .openFailed, fs)
  | some content =>
    if env.openFails then (.error .openFailed, fs)
    else if env.createFails then (.error .createFailed, fs)
    else
      match env.copyFailsAfter with
      | some k =>
        (.error .copyFailed,
          { fs with dst := fun x => if x = name then some (content.take k) else fs.dst x })
      | none =>
        let fs1 : Fs := { fs with dst := fun x => if x = name then some content else fs.dst x }
        if env.closeSrcFails then (.error .closeSrcFailed, fs1)
        else if env.closeDstFails then (.error .closeDstFailed, fs1)
        else if env.removeFails then (.error .removeFailed, fs1)
        else (.ok name, { fs1 with src := fun x => if x = name then none else fs.src x })

/-- An external command invocation: program name and argument list, as
built by exec.Command in unarchiveFile. -/
structure Command where
  prog : String
  args : List String
  deriving DecidableEq

/-- Go filepath.Ext: the suffix of the name starting at the final dot,
empty when the name contains no dot. -/
def filepathExt (s : String) : String :=
  if s.data.contains (Char.ofNat 46) then
    String.mk (Char.ofNat 46 :: (s.data.reverse.takeWhile (fun c => c ≠ Char.ofNat 46)).reverse)
  else ""

/-- The switch statement of unarchiveFile: the external command mapped to
a lowercased extension, or none for an unrecognized extension. -/
def archiveCmd (ext : String) (name : String) : Option Command :=
  if ext = ".zip" then some ⟨"unzip", [name]⟩
  else if ext = ".gz" ∨ ext = ".tgz" then some ⟨"tar", ["-xzf", name]⟩
  else if ext = ".tar" then some ⟨"tar", ["-xf", name]⟩
  else if ext = ".7z" then some ⟨"7z", ["x", name]⟩
  else none

/-- The command unarchiveFile would run for a directory entry name:
filepath.Ext, then strings.ToLower, then the switch. -/
def matchCmd (name : String) : Option Command :=
  archiveCmd (strToLower (filepathExt name)) name

/-- Outcome of unarchiveFile: archive extracted and removed, extraction
command failed, removal of the archive failed, or no recognized archive
in the directory. -/
inductive ArchOutcome where
  | extracted (cmd : Command) (name : String)
  | extractionError (cmd : Command) (name : String)
  | removeError (name : String)
  | noArchive
  deriving DecidableEq

/-- The loop of unarchiveFile over the current directory entries in
enumeration order: skip entries with unrecognized extensions, and for the
first recognized one run the mapped command (runOk tells whether cmd.Run
succeeds), then os.Remove the archive (removeOk tells whether that
succeeds).  Returns the outcome together with the name of the file
removed, if any. -/
def unarchiveRun (entries : List String) (runOk : Command → Bool) (removeOk : String → Bool) :
    ArchOutcome × Option String :=
  match entries with
  | [] => (.noArchive, none)
  | name :: rest =>
    match matchCmd name with
    | none => unarchiveRun rest runOk removeOk
    | some cmd =>
      if runOk cmd then
        if removeOk name then (.extracted cmd name, some name) else (.removeError name, none)
      else (.extractionError cmd name, none)

/-- Observable result of one process run: the lines the program itself
prints to standard output, the lines it prints to standard error, and the
exit code.  Output of the external extraction tool (whose streams are
inherited) is not included. -/
structure RunResult where
  stdoutLines : List String
  stderrLines : List String
  exitCode : Nat
  deriving DecidableEq

/-- The message unarchiveFile returns for each failing outcome, following
the fmt.Errorf format strings (wrapped process errors omitted). -/
def archErrMsg : ArchOutcome → String
  | .extracted _ _ => ""
  | .extractionError _ name => "failed to unarchive " ++ name
  | .removeError _ => "failed to remove original archive file"
  | .noArchive => "no recognized archive file found in the current directory"

/-- The Run function of rootCmd: run moveNthNewestFile (mv carries its
result; on success moveFile has already printed the moved file name to
standard output), report an error to standard error and exit 1, otherwise
when the unarchive flag is set run unarchiveFile, which on success prints
an informational line to standard output and on failure causes an error
line and exit 1. -/
def runGetnew (mv : Except MoveErr String) (unarchiveFlag : Bool) (ua : ArchOutcome) :
    RunResult :=
  match mv with
  | .error e => ⟨[], ["Error: " ++ errMsg e], 1⟩
  | .ok name =>
    if unarchiveFlag then
      match ua with
      | .extracted _ aname => ⟨[name, "Unarchived and removed: " ++ aname], [], 0⟩
      | o => ⟨[name], ["Error unarchiving: " ++ archErrMsg o], 1⟩
    else ⟨[name], [], 0⟩

/-- Distinctness of modification times carries over a permutation. -/
theorem pairwise_ne_perm {l₁ l₂ : List FileInfo} (p : List.Perm l₁ l₂)
    (h : l₁.Pairwise (fun a b => a.modTime ≠ b.modTime)) :
    l₂.Pairwise (fun a b => a.modTime ≠ b.modTime) :=
  (List.Perm.pairwise_iff (by intro x y hab; exact Ne.symm hab) p).1 h

/-- Two sorted permutations of the same candidate multiset agree when the
modification times are pairwise distinct. -/
theorem goSortedDesc_unique {l₁ l₂ : List FileInfo} (p : List.Perm l₁ l₂)
    (hs₁ : IsGoSortedDesc l₁) (hs₂ : IsGoSortedDesc l₂)
    (hne : l₁.Pairwise (fun a b => a.modTime ≠ b.modTime)) : l₁ = l₂ := by
  haveI : IsAntisymm FileInfo (fun a b => b.modTime < a.modTime) :=
    ⟨fun a b hab hba => absurd (lt_trans hab hba) (lt_irrefl _)⟩
  have hlt₁ : List.Sorted (fun a b : FileInfo => b.modTime < a.modTime) l₁ :=
    List.Pairwise.imp₂ (fun a b hle hab => lt_of_le_of_ne hle (fun h => hab h.symm)) hs₁ hne
  have hlt₂ : List.Sorted (fun a b : FileInfo => b.modTime < a.modTime) l₂ :=
    List.Pairwise.imp₂ (fun a b hle hab => lt_of_le_of_ne hle (fun h => hab h.symm)) hs₂
      (pairwise_ne_perm p hne)
  exact List.eq_of_perm_of_sorted p hlt₁ hlt₂

/-- Unfolding of moveFileSelect when the candidate list is non-empty. -/
theorem moveFileSelect_ne_nil {files : List FileInfo} {nth : Int} {fileFilter : String}
    {out : SelectOutcome} (h : moveFileSelect files nth fileFilter out) (hne : files ≠ []) :
    ∃ sorted : List FileInfo,
      List.Perm sorted files ∧ IsGoSortedDesc sorted ∧ out = selectAfterSort sorted nth := by
  unfold moveFileSelect at h
  rwa [if_neg (by simpa [List.length_eq_zero] using hne)] at h

/-- The message for a non-empty filter differs from the empty-filter
message (the two fmt.Errorf format strings have different lengths for
every filter value). -/
theorem errMsg_noFilesMatching_ne (f : String) :
    errMsg (MoveErr.noFilesMatching f) ≠ errMsg MoveErr.noFiles := by
  intro h
  have hlen := congrArg String.length h
  simp only [errMsg, String.length_append] at hlen
  rw [show ("no files matching ").length = 18 from rfl,
    show (" found in the source directory").length = 30 from rfl,
    show ("no files found in the source directory").length = 38 from rfl,
    show sq.length = 1 from rfl] at hlen
  omega

/-- C1: with a non-empty candidate set and a rank between 1 and the
candidate count, the Selector returns the candidate at zero-based index
rank - 1 of the candidates ordered by modification time descending; in
the example listing a.txt (oldest), b.log (newest), c.txt (middle), rank
2 without filter selects c.txt, and rank 1 with filter txt also selects
c.txt. -/
theorem C1_rank_selects_expected_candidate :
    (∀ (files : List FileInfo) (nth : Int) (fileFilter : String) (out : SelectOutcome),
        moveFileSelect files nth fileFilter out → files ≠ [] → 1 ≤ nth →
        nth ≤ (files.length : Int) →
        ∃ (sorted : List FileInfo) (h : (nth - 1).toNat < sorted.length),
          List.Perm sorted files ∧ IsGoSortedDesc sorted ∧
            out = SelectOutcome.ok (sorted.get ⟨(nth - 1).toNat, h⟩))
    ∧ (∀ out, moveNthNewestSelect
          [⟨"a.txt", false, 1⟩, ⟨"b.log", false, 3⟩, ⟨"c.txt", false, 2⟩] 2 "" out →
          out = SelectOutcome.ok ⟨"c.txt", 2⟩)
    ∧ (∀ out, moveNthNewestSelect
          [⟨"a.txt", false, 1⟩, ⟨"b.log", false, 3⟩, ⟨"c.txt", false, 2⟩] 1 "txt" out →
          out = SelectOutcome.ok ⟨"c.txt", 2⟩) := by
  refine ⟨?_, ?_, ?_⟩
  · intro files nth fileFilter out hsel hne h1 h2
    obtain ⟨sorted, hperm, hsort, hout⟩ := moveFileSelect_ne_nil hsel hne
    have hlen : sorted.length = files.length := hperm.length_eq
    have hidx : (nth - 1).toNat < sorted.length := by omega
    refine ⟨sorted, hidx, hperm, hsort, ?_⟩
    rw [hout]
    unfold selectAfterSort
    rw [if_neg (by omega), dif_pos ⟨by omega, hidx⟩]
  · intro out hsel
    unfold moveNthNewestSelect at hsel
    obtain ⟨sorted, hperm, hsort, hout⟩ := moveFileSelect_ne_nil hsel (by decide)
    have hs : sorted = [⟨"b.log", 3⟩, ⟨"c.txt", 2⟩, ⟨"a.txt", 1⟩] := by
      refine goSortedDesc_unique (hperm.trans (by decide)) hsort (by decide) ?_
      exact pairwise_ne_perm hperm.symm (by decide)
    rw [hout, hs]
    decide
  · intro out hsel
    unfold moveNthNewestSelect at hsel
    obtain ⟨sorted, hperm, hsort, hout⟩ := moveFileSelect_ne_nil hsel (by decide)
    have hs : sorted = [⟨"c.txt", 2⟩, ⟨"a.txt", 1⟩] := by
      refine goSortedDesc_unique (hperm.trans (by decide)) hsort (by decide) ?_
      exact pairwise_ne_perm hperm.symm (by decide)
    rw [hout, hs]
    decide

/-- Witness for C1: the example selection with filter txt and rank 1,
evaluated at the concrete listing. -/
theorem C1_rank_selects_expected_candidate_witness :
    SelectOutcome.ok (⟨"c.txt", 2⟩ : FileInfo) = SelectOutcome.ok ⟨"c.txt", 2⟩ := by
  refine C1_rank_selects_expected_candidate.2.2 _ ?_
  unfold moveNthNewestSelect moveFileSelect
  rw [if_neg (by decide)]
  exact ⟨[⟨"c.txt", 2⟩, ⟨"a.txt", 1⟩], by decide, by decide, by decide⟩

/-- C3 counterexample: with two candidates sharing one modification time,
both orders satisfy the sorting contract of sort.Slice (which Go
documents as not guaranteed to be stable), so rank 1 can select either
file: selection at tied timestamps is not determined by the code. -/
theorem C3_counterexample_tied_times :
    moveFileSelect [⟨"x", 5⟩, ⟨"y", 5⟩] 1 "" (SelectOutcome.ok ⟨"x", 5⟩)
    ∧ moveFileSelect [⟨"x", 5⟩, ⟨"y", 5⟩] 1 "" (SelectOutcome.ok ⟨"y", 5⟩)
    ∧ SelectOutcome.ok ⟨"x", 5⟩ ≠ SelectOutcome.ok ⟨"y", 5⟩ := by
  refine ⟨?_, ?_, by decide⟩
  · unfold moveFileSelect
    rw [if_neg (by decide)]
    exact ⟨[⟨"x", 5⟩, ⟨"y", 5⟩], by decide, by decide, by decide⟩
  · unfold moveFileSelect
    rw [if_neg (by decide)]
    exact ⟨[⟨"y", 5⟩, ⟨"x", 5⟩], by decide, by decide, by decide⟩

/-- C3 amended: when the modification times of the candidates are
pairwise distinct, selection is deterministic: any two outcomes of the
selection phase on the same candidate list, rank and filter coincide. -/
theorem C3_selection_deterministic_distinct_times :
    ∀ (files : List FileInfo) (nth : Int) (fileFilter : String) (out₁ out₂ : SelectOutcome),
      files.Pairwise (fun a b => a.modTime ≠ b.modTime) →
      moveFileSelect files nth fileFilter out₁ →
      moveFileSelect files nth fileFilter out₂ → out₁ = out₂ := by
  intro files nth fileFilter out₁ out₂ hne h₁ h₂
  by_cases hnil : files = []
  · subst hnil
    simp only [moveFileSelect, List.length_nil, if_pos] at h₁ h₂
    rw [h₁, h₂]
  · obtain ⟨s₁, hp₁, hs₁, ho₁⟩ := moveFileSelect_ne_nil h₁ hnil
    obtain ⟨s₂, hp₂, hs₂, ho₂⟩ := moveFileSelect_ne_nil h₂ hnil
    have hs : s₁ = s₂ :=
      goSortedDesc_unique (hp₁.trans hp₂.symm) hs₁ hs₂ (pairwise_ne_perm hp₁.symm hne)
    rw [ho₁, ho₂, hs]

/-- Witness for the amended C3 at a concrete two-candidate listing with
distinct modification times. -/
theorem C3_selection_deterministic_distinct_times_witness :
    SelectOutcome.ok (⟨"b", 2⟩ : FileInfo) = SelectOutcome.ok ⟨"b", 2⟩ := by
  refine C3_selection_deterministic_distinct_times [⟨"a", 1⟩, ⟨"b", 2⟩] 1 "" _ _
    (by decide) ?_ ?_ <;>
  · unfold moveFileSelect
    rw [if_neg (by decide)]
    exact ⟨[⟨"b", 2⟩, ⟨"a", 1⟩], by decide, by decide, by decide⟩

/-- Correctness of the embedded strings.Contains: it decides occurrence
as a contiguous substring. -/
theorem goContains_iff_substr (s sub : String) :
    goContains s sub = true ↔ ∃ pre post : List Char, s.data = pre ++ sub.data ++ post := by
  unfold goContains
  rw [List.any_eq_true]
  constructor
  · rintro ⟨i, _, hpre⟩
    rw [List.isPrefixOf_iff_prefix] at hpre
    obtain ⟨post, hpost⟩ := hpre
    refine ⟨s.data.take i, post, ?_⟩
    conv_lhs => rw [← List.take_append_drop i s.data]
    rw [← hpost, List.append_assoc]
  · rintro ⟨pre, post, h⟩
    have hle : pre.length ≤ s.data.length := by
      rw [h]
      simp [List.length_append]
    refine ⟨pre.length, ?_, ?_⟩
    · rw [List.mem_range]
      omega
    · rw [List.isPrefixOf_iff_prefix, h, List.append_assoc, List.drop_left]
      exact ⟨post, rfl⟩

/-- C5: the candidate set consists of exactly the non-directory entries
whose lowercased name contains the lowercased filter as a substring; an
empty filter keeps every non-directory entry; no directory entry is a
candidate. -/
theorem C5_candidate_set_characterization :
    (∀ (entries : List DirEntry) (fileFilter : String) (f : FileInfo),
        f ∈ collectRegularFiles entries fileFilter ↔
          ∃ e, e ∈ entries ∧ e.isDir = false ∧ f = entryInfo e ∧
            (fileFilter = "" ∨
              goContains (strToLower e.name) (strToLower fileFilter) = true))
    ∧ (∀ entries : List DirEntry, collectRegularFiles entries "" =
        (entries.filter (fun e => !e.isDir)).map entryInfo)
    ∧ (∀ s sub : String, goContains s sub = true ↔
        ∃ pre post : List Char, s.data = pre ++ sub.data ++ post) := by
  refine ⟨?_, ?_, goContains_iff_substr⟩
  · intro entries fileFilter f
    unfold collectRegularFiles
    simp only [List.mem_map, List.mem_filter]
    constructor
    · rintro ⟨e, ⟨he, hk⟩, hf⟩
      simp only [keepEntry, Bool.and_eq_true, Bool.not_eq_true', Bool.or_eq_true,
        beq_iff_eq] at hk
      exact ⟨e, he, hk.1, hf.symm, hk.2⟩
    · rintro ⟨e, he, hdir, hf, hfil⟩
      refine ⟨e, ⟨he, ?_⟩, hf.symm⟩
      simp only [keepEntry, Bool.and_eq_true, Bool.not_eq_true', Bool.or_eq_true,
        beq_iff_eq]
      exact ⟨hdir, hfil⟩
  · intro entries
    unfold collectRegularFiles
    congr 1
    apply List.filter_congr
    intro e _
    simp [keepEntry]

/-- Witness for C5: the empty filter keeps exactly the non-directory
entries of a concrete listing. -/
theorem C5_candidate_set_characterization_witness :
    collectRegularFiles [⟨"a", true, 1⟩, ⟨"b", false, 2⟩] "" =
      ([⟨"a", true, 1⟩, ⟨"b", false, 2⟩].filter (fun e => !e.isDir)).map entryInfo :=
  C5_candidate_set_characterization.2.1 [⟨"a", true, 1⟩, ⟨"b", false, 2⟩]

/-- C2: a successful relocation leaves no file at the source path and a
byte-for-byte identical copy at the destination path, and the source
file is removed exactly when every step up to and including the removal
succeeded, in particular never before a full successful copy. -/
theorem C2_relocation_copy_then_remove :
    ∀ (fs : Fs) (env : FsEnv) (name : String) (content : List Nat),
      fs.src name = some content →
      (((moveFileCopyPhase fs env name).1 = Except.ok name →
          (moveFileCopyPhase fs env name).2.src name = none ∧
          (moveFileCopyPhase fs env name).2.dst name = some content)
      ∧ ((moveFileCopyPhase fs env name).2.src name = none ↔
          (moveFileCopyPhase fs env name).1 = Except.ok name)) := by
  intro fs env name content hsrc
  obtain ⟨o, c, k, cs, cd, r⟩ := env
  cases o <;> cases c <;> rcases k with _ | k <;> cases cs <;> cases cd <;> cases r <;>
    simp [moveFileCopyPhase, hsrc]

/-- Witness for C2: a fully successful run on a concrete filesystem with
one source file of three bytes. -/
theorem C2_relocation_copy_then_remove_witness :
    (moveFileCopyPhase ⟨fun x => if x = "f" then some [1, 2, 3] else none, fun _ => none⟩
        ⟨false, false, none, false, false, false⟩ "f").2.src "f" = none ∧
    (moveFileCopyPhase ⟨fun x => if x = "f" then some [1, 2, 3] else none, fun _ => none⟩
        ⟨false, false, none, false, false, false⟩ "f").2.dst "f" = some [1, 2, 3] :=
  (C2_relocation_copy_then_remove
    ⟨fun x => if x = "f" then some [1, 2, 3] else none, fun _ => none⟩
    ⟨false, false, none, false, false, false⟩ "f" [1, 2, 3] rfl).1 rfl

/-- C6: every failing relocation returns the error of the failing step,
leaves the original source file in place, and leaves whatever was
written to the destination in place (no rollback): an open or create
failure leaves the filesystem unchanged, a copy failure after k bytes
leaves those k bytes at the destination, and a remove failure leaves the
full copy at the destination with the source intact. -/
theorem C6_failure_keeps_source_and_partial_dest :
    ∀ (fs : Fs) (env : FsEnv) (name : String) (content : List Nat),
      fs.src name = some content →
      ((∀ e, (moveFileCopyPhase fs env name).1 = Except.error e →
          (moveFileCopyPhase fs env name).2.src name = some content)
      ∧ (env.openFails = true →
          moveFileCopyPhase fs env name = (Except.error MoveErr.openFailed, fs))
      ∧ (env.openFails = false → env.createFails = true →
          moveFileCopyPhase fs env name = (Except.error MoveErr.createFailed, fs))
      ∧ (∀ k, env.openFails = false → env.createFails = false →
          env.copyFailsAfter = some k →
          (moveFileCopyPhase fs env name).1 = Except.error MoveErr.copyFailed ∧
          (moveFileCopyPhase fs env name).2.src name = some content ∧
          (moveFileCopyPhase fs env name).2.dst name = some (content.take k))
      ∧ (env.openFails = false → env.createFails = false → env.copyFailsAfter = none →
          env.closeSrcFails = false → env.closeDstFails = false → env.removeFails = true →
          (moveFileCopyPhase fs env name).1 = Except.error MoveErr.removeFailed ∧
          (moveFileCopyPhase fs env name).2.src name = some content ∧
          (moveFileCopyPhase fs env name).2.dst name = some content)) := by
  intro fs env name content hsrc
  obtain ⟨o, c, k, cs, cd, r⟩ := env
  cases o <;> cases c <;> rcases k with _ | k <;> cases cs <;> cases cd <;> cases r <;>
    simp [moveFileCopyPhase, hsrc]

/-- Witness for C6: an open failure on a concrete filesystem leaves the
state unchanged and reports the open step. -/
theorem C6_failure_keeps_source_and_partial_dest_witness :
    moveFileCopyPhase ⟨fun x => if x = "f" then some [1, 2] else none, fun _ => none⟩
        ⟨true, false, none, false, false, false⟩ "f" =
      (Except.error MoveErr.openFailed,
        ⟨fun x => if x = "f" then some [1, 2] else none, fun _ => none⟩) :=
  (C6_failure_keeps_source_and_partial_dest
    ⟨fun x => if x = "f" then some [1, 2] else none, fun _ => none⟩
    ⟨true, false, none, false, false, false⟩ "f" [1, 2] rfl).2.1 rfl

/-- C4: the selection fails with the no-files error exactly when zero
candidates remain after filtering, with the message distinguishing the
empty-filter case from the non-empty-filter case, and fails with
OutOfRange exactly when candidates exist and the rank exceeds their
count; it never clamps the rank. -/
theorem C4_notfound_and_outofrange :
    ∀ (files : List FileInfo) (nth : Int) (fileFilter : String) (out : SelectOutcome),
      moveFileSelect files nth fileFilter out →
      ((files = [] → out = SelectOutcome.err (emptyListError fileFilter))
      ∧ ((∃ e, out = SelectOutcome.err e ∧
            (e = MoveErr.noFiles ∨ ∃ f, e = MoveErr.noFilesMatching f)) ↔ files = [])
      ∧ ((∃ n c, out = SelectOutcome.err (MoveErr.outOfRange n c)) ↔
          (files ≠ [] ∧ nth > (files.length : Int)))
      ∧ (files ≠ [] → nth > (files.length : Int) →
          out = SelectOutcome.err (MoveErr.outOfRange nth files.length))
      ∧ emptyListError "" = MoveErr.noFiles
      ∧ (∀ f : String, f ≠ "" → emptyListError f = MoveErr.noFilesMatching f)
      ∧ (∀ f : String, errMsg (MoveErr.noFilesMatching f) ≠ errMsg MoveErr.noFiles)) := by
  intro files nth fileFilter out hsel
  by_cases hnil : files = []
  · subst hnil
    simp only [moveFileSelect, List.length_nil, if_pos] at hsel
    refine ⟨fun _ => hsel, ⟨fun _ => rfl, fun _ => ⟨emptyListError fileFilter, hsel, ?_⟩⟩,
      ⟨?_, ?_⟩, fun hne _ => absurd rfl hne, by simp [emptyListError],
      fun f hf => by simp [emptyListError, hf], errMsg_noFilesMatching_ne⟩
    · by_cases hf : fileFilter = ""
      · exact Or.inl (by simp [emptyListError, hf])
      · exact Or.inr ⟨fileFilter, by simp [emptyListError, hf]⟩
    · rintro ⟨n, c, hoc⟩
      rw [hsel] at hoc
      unfold emptyListError at hoc
      split at hoc <;> simp_all
    · rintro ⟨hne, _⟩
      exact absurd rfl hne
  · obtain ⟨sorted, hperm, hsort, hout⟩ := moveFileSelect_ne_nil hsel hnil
    have hlen : sorted.length = files.length := hperm.length_eq
    by_cases hgt : nth > (sorted.length : Int)
    · have hoor : out = SelectOutcome.err (MoveErr.outOfRange nth files.length) := by
        rw [hout]
        unfold selectAfterSort
        rw [if_pos hgt, hlen]
      refine ⟨fun h => absurd h hnil, ⟨?_, fun h => absurd h hnil⟩,
        ⟨fun _ => ⟨hnil, by omega⟩, fun _ => ⟨nth, files.length, hoor⟩⟩, fun _ _ => hoor,
        by simp [emptyListError], fun f hf => by simp [emptyListError, hf],
        errMsg_noFilesMatching_ne⟩
      rintro ⟨e, he, hcase⟩
      rw [hoor] at he
      injection he with he'
      rcases hcase with h | ⟨f, h⟩ <;> simp_all
    · have hnoerr : ∀ e : MoveErr, out ≠ SelectOutcome.err e := by
        rw [hout]
        unfold selectAfterSort
        rw [if_neg hgt]
        intro e
        split <;> simp
      refine ⟨fun h => absurd h hnil, ⟨?_, fun h => absurd h hnil⟩, ⟨?_, ?_⟩, ?_,
        by simp [emptyListError], fun f hf => by simp [emptyListError, hf],
        errMsg_noFilesMatching_ne⟩
      · rintro ⟨e, he, _⟩
        exact absurd he (hnoerr e)
      · rintro ⟨n, c, hoc⟩
        exact absurd hoc (hnoerr _)
      · rintro ⟨_, hgt2⟩
        exact absurd hgt2 (by omega)
      · intro _ hgt2
        exact absurd hgt2 (by omega)

/-- Witness for C4: rank 3 on a one-candidate listing yields the
OutOfRange error with the requested rank and the available count. -/
theorem C4_notfound_and_outofrange_witness :
    SelectOutcome.err (MoveErr.outOfRange 3 1) = SelectOutcome.err (MoveErr.outOfRange 3 1) := by
  have h := C4_notfound_and_outofrange [⟨"a", 5⟩] 3 ""
    (SelectOutcome.err (MoveErr.outOfRange 3 1))
    (by
      unfold moveFileSelect
      rw [if_neg (by decide)]
      exact ⟨[⟨"a", 5⟩], by decide, by decide, by decide⟩)
  exact h.2.2.2.1 (by decide) (by decide)

/-- C10: with a non-empty candidate list and a rank at most 0, the
selection does not return an OutOfRange error: the only rank guard is
rank greater than the count, so the code reaches the slice index
rank - 1, which is out of bounds and panics. -/
theorem C10_nonpositive_rank_panics :
    ∀ (files : List FileInfo) (nth : Int) (fileFilter : String) (out : SelectOutcome),
      moveFileSelect files nth fileFilter out → files ≠ [] → nth ≤ 0 →
      out = SelectOutcome.panicked ∧ ∀ e : MoveErr, out ≠ SelectOutcome.err e := by
  intro files nth fileFilter out hsel hne hle
  obtain ⟨sorted, hperm, hsort, hout⟩ := moveFileSelect_ne_nil hsel hne
  have hlen : sorted.length = files.length := hperm.length_eq
  have hpos : 0 < files.length := List.length_pos.2 hne
  have hp : out = SelectOutcome.panicked := by
    rw [hout]
    unfold selectAfterSort
    rw [if_neg (by omega), dif_neg (by omega)]
  exact ⟨hp, by simp [hp]⟩

/-- Witness for C10: rank 0 on a one-candidate list panics. -/
theorem C10_nonpositive_rank_panics_witness :
    SelectOutcome.panicked = SelectOutcome.panicked :=
  (C10_nonpositive_rank_panics [⟨"a", 1⟩] 0 "" SelectOutcome.panicked
    (by
      unfold moveFileSelect
      rw [if_neg (by decide)]
      exact ⟨[⟨"a", 1⟩], by decide, by decide, by decide⟩)
    (by decide) (by decide)).1

/-- C7: the dispatcher scans entries in enumeration order and acts on the
first entry whose lowercased extension is recognized, invoking exactly
the mapped external command; with no recognized extension it reports
that no archive was found. -/
theorem C7_first_match_dispatch :
    ∀ (runOk : Command → Bool) (removeOk : String → Bool),
      ((∀ entries : List String, (∀ e ∈ entries, matchCmd e = none) →
          unarchiveRun entries runOk removeOk = (ArchOutcome.noArchive, none))
      ∧ (∀ entries : List String,
          unarchiveRun entries runOk removeOk = (ArchOutcome.noArchive, none) →
          ∀ e ∈ entries, matchCmd e = none)
      ∧ (∀ (pre : List String) (name : String) (post : List String) (cmd : Command),
          (∀ e ∈ pre, matchCmd e = none) → matchCmd name = some cmd →
          unarchiveRun (pre ++ name :: post) runOk removeOk =
            (if runOk cmd then
              (if removeOk name then (ArchOutcome.extracted cmd name, some name)
               else (ArchOutcome.removeError name, none))
             else (ArchOutcome.extractionError cmd name, none)))
      ∧ (∀ name, strToLower (filepathExt name) = ".zip" →
          matchCmd name = some ⟨"unzip", [name]⟩)
      ∧ (∀ name, strToLower (filepathExt name) = ".gz" →
          matchCmd name = some ⟨"tar", ["-xzf", name]⟩)
      ∧ (∀ name, strToLower (filepathExt name) = ".tgz" →
          matchCmd name = some ⟨"tar", ["-xzf", name]⟩)
      ∧ (∀ name, strToLower (filepathExt name) = ".tar" →
          matchCmd name = some ⟨"tar", ["-xf", name]⟩)
      ∧ (∀ name, strToLower (filepathExt name) = ".7z" →
          matchCmd name = some ⟨"7z", ["x", name]⟩)
      ∧ (∀ name, strToLower (filepathExt name) ∉
            ([".zip", ".gz", ".tgz", ".tar", ".7z"] : List String) →
          matchCmd name = none)) := by
  intro runOk removeOk
  refine ⟨?_, ?_, ?_, ?_, ?_, ?_, ?_, ?_, ?_⟩
  · intro entries h
    induction entries with
    | nil => rfl
    | cons name rest ih =>
      have hn : matchCmd name = none := h name (List.mem_cons_self _ _)
      simp only [unarchiveRun, hn]
      exact ih (fun e he => h e (List.mem_cons_of_mem _ he))
  · intro entries
    induction entries with
    | nil => intro _ e he; exact absurd he (List.not_mem_nil e)
    | cons name rest ih =>
      intro h e he
      cases hm : matchCmd name with
      | none =>
        rcases List.mem_cons.1 he with rfl | he'
        · exact hm
        · refine ih ?_ e he'
          simpa [unarchiveRun, hm] using h
      | some cmd =>
        exfalso
        simp only [unarchiveRun, hm] at h
        split at h
        · split at h <;> simp at h
        · simp at h
  · intro pre
    induction pre with
    | nil =>
      intro name post cmd _ hm
      simp only [List.nil_append, unarchiveRun, hm]
    | cons x xs ih =>
      intro name post cmd hpre hm
      have hx : matchCmd x = none := hpre x (List.mem_cons_self _ _)
      simp only [List.cons_append, unarchiveRun, hx]
      exact ih name post cmd (fun e he => hpre e (List.mem_cons_of_mem _ he)) hm
  · intro name h
    unfold matchCmd archiveCmd
    rw [h]
    simp
  · intro name h
    unfold matchCmd archiveCmd
    rw [h]
    simp
  · intro name h
    unfold matchCmd archiveCmd
    rw [h]
    simp
  · intro name h
    unfold matchCmd archiveCmd
    rw [h]
    simp
  · intro name h
    unfold matchCmd archiveCmd
    rw [h]
    simp
  · intro name h
    simp only [List.mem_cons, List.not_mem_nil, or_false, not_or] at h
    obtain ⟨h1, h2, h3, h4, h5⟩ := h
    unfold matchCmd archiveCmd
    rw [if_neg h1, if_neg (not_or.2 ⟨h2, h3⟩), if_neg h4, if_neg h5]

/-- Witness for C7: a concrete two-entry directory where the first entry
is not an archive and the second is a zip file. -/
theorem C7_first_match_dispatch_witness :
    unarchiveRun (["notes.txt"] ++ "a.zip" :: []) (fun _ => true) (fun _ => true) =
      (if (fun _ : Command => true) ⟨"unzip", ["a.zip"]⟩ then
        (if (fun _ : String => true) "a.zip" then
          (ArchOutcome.extracted ⟨"unzip", ["a.zip"]⟩ "a.zip", some "a.zip")
         else (ArchOutcome.removeError "a.zip", none))
       else (ArchOutcome.extractionError ⟨"unzip", ["a.zip"]⟩ "a.zip", none)) :=
  (C7_first_match_dispatch (fun _ => true) (fun _ => true)).2.2.1 ["notes.txt"] "a.zip" []
    ⟨"unzip", ["a.zip"]⟩ (by decide) (by decide)

/-- C8 counterexample: when os.Remove of the archive fails after a
successful extraction command, the command exited successfully yet the
archive is not deleted and the reported outcome is the remove failure,
a case outside the if-and-only-if of the claim. -/
theorem C8_counterexample_remove_failure :
    (unarchiveRun ["a.zip"] (fun _ => true) (fun _ => false)).1 =
      ArchOutcome.removeError "a.zip"
    ∧ (unarchiveRun ["a.zip"] (fun _ => true) (fun _ => false)).2 = none
    ∧ (fun _ : Command => true) ⟨"unzip", ["a.zip"]⟩ = true := by
  decide

/-- C8 amended: the archive is deleted only if the extraction command
exited successfully; on successful exit and successful removal the
archive is removed and success reported; on nonzero exit the extraction
error is reported and nothing is deleted; if the removal itself fails
the archive also remains, with a remove error; with no archive found
nothing is deleted. -/
theorem C8_archive_delete_amended :
    ∀ (entries : List String) (runOk : Command → Bool) (removeOk : String → Bool),
      ((∀ cmd name,
          (unarchiveRun entries runOk removeOk).1 = ArchOutcome.extracted cmd name →
          runOk cmd = true ∧ removeOk name = true ∧
          (unarchiveRun entries runOk removeOk).2 = some name)
      ∧ (∀ cmd name,
          (unarchiveRun entries runOk removeOk).1 = ArchOutcome.extractionError cmd name →
          runOk cmd = false ∧ (unarchiveRun entries runOk removeOk).2 = none)
      ∧ (∀ name, (unarchiveRun entries runOk removeOk).1 = ArchOutcome.removeError name →
          removeOk name = false ∧ (unarchiveRun entries runOk removeOk).2 = none)
      ∧ ((unarchiveRun entries runOk removeOk).1 = ArchOutcome.noArchive →
          (unarchiveRun entries runOk removeOk).2 = none)
      ∧ (∀ name, (unarchiveRun entries runOk removeOk).2 = some name →
          ∃ cmd,
            (unarchiveRun entries runOk removeOk).1 = ArchOutcome.extracted cmd name ∧
            runOk cmd = true)) := by
  intro entries runOk removeOk
  induction entries with
  | nil => simp [unarchiveRun]
  | cons x rest ih =>
    cases hm : matchCmd x with
    | none => simpa [unarchiveRun, hm] using ih
    | some cmd =>
      cases hr : runOk cmd with
      | false => simp [unarchiveRun, hm, hr]
      | true =>
        cases hv : removeOk x with
        | false => simp [unarchiveRun, hm, hr, hv]
        | true => simp [unarchiveRun, hm, hr, hv]

/-- Witness for the amended C8: a successful extraction and removal of a
concrete zip archive. -/
theorem C8_archive_delete_amended_witness :
    (fun _ : Command => true) ⟨"unzip", ["a.zip"]⟩ = true ∧
      (fun _ : String => true) "a.zip" = true ∧
      (unarchiveRun ["a.zip"] (fun _ => true) (fun _ => true)).2 = some "a.zip" :=
  (C8_archive_delete_amended ["a.zip"] (fun _ => true) (fun _ => true)).1
    ⟨"unzip", ["a.zip"]⟩ "a.zip" (by decide)

/-- C9 counterexample: a fully successful run with the unarchive flag
prints a second line to standard output after the moved file name, so
the file name is not the sole output on standard output. -/
theorem C9_counterexample_unarchive_extra_output :
    (runGetnew (Except.ok "f.tgz") true
        (ArchOutcome.extracted ⟨"tar", ["-xzf", "f.tgz"]⟩ "f.tgz")).exitCode = 0
    ∧ (runGetnew (Except.ok "f.tgz") true
        (ArchOutcome.extracted ⟨"tar", ["-xzf", "f.tgz"]⟩ "f.tgz")).stdoutLines ≠
        ["f.tgz"] := by
  decide

/-- C9 amended: without the unarchive flag a successful run prints
exactly the moved file name to standard output and exits 0; with the
flag a successful extraction prints one additional informational line;
every reported error is written to standard error with exit code 1; the
moved file name is always the first standard-output line of a
successful move. -/
theorem C9_output_and_exit_codes_amended :
    ∀ (name : String) (e : MoveErr) (ua : ArchOutcome) (flag : Bool),
      (runGetnew (Except.ok name) false ua = ⟨[name], [], 0⟩)
      ∧ (runGetnew (Except.error e) flag ua = ⟨[], ["Error: " ++ errMsg e], 1⟩)
      ∧ (∀ cmd aname, runGetnew (Except.ok name) true (ArchOutcome.extracted cmd aname) =
          ⟨[name, "Unarchived and removed: " ++ aname], [], 0⟩)
      ∧ ((∀ cmd aname, ua ≠ ArchOutcome.extracted cmd aname) →
          runGetnew (Except.ok name) true ua =
            ⟨[name], ["Error unarchiving: " ++ archErrMsg ua], 1⟩)
      ∧ ((runGetnew (Except.ok name) flag ua).stdoutLines.head? = some name)
      ∧ ((runGetnew (Except.ok name) flag ua).exitCode = 0 ∨
          (runGetnew (Except.ok name) flag ua).stderrLines ≠ []) := by
  intro name e ua flag
  refine ⟨rfl, rfl, fun cmd aname => rfl, ?_, ?_, ?_⟩
  · intro h
    cases ua with
    | extracted cmd aname => exact absurd rfl (h cmd aname)
    | extractionError cmd aname => rfl
    | removeError aname => rfl
    | noArchive => rfl
  · cases flag <;> cases ua <;> rfl
  · cases flag <;> cases ua <;> simp [runGetnew]

/-- Witness for the amended C9: a run with the unarchive flag and no
archive present reports the unarchiving error and exits 1. -/
theorem C9_output_and_exit_codes_amended_witness :
    runGetnew (Except.ok "f") true ArchOutcome.noArchive =
      ⟨["f"], ["Error unarchiving: " ++ archErrMsg ArchOutcome.noArchive], 1⟩ :=
  (C9_output_and_exit_codes_amended "f" MoveErr.noFiles ArchOutcome.noArchive true).2.2.2.1
    (fun _ _ => by simp)

end Getnew
